import Mathlib

/-!
Verification of the versioned type-registration core (`stix2/registration.py`).

The registration module itself is translated directly.  Collaborator modules
(`properties`, `registry`, `utils`, `version`) are not part of the core; the
definitions standing in for them are marked `Modelled from the spec:` and
follow the specification's description of their observable contracts.
-/

/-- Modelled from the spec: the property-type hierarchy lives in the external
`properties` module.  A property definition exposes only its concrete class
(reference-capable or not, list or not) for the `isinstance` tests performed
by the registration core. -/
inductive PropClass where
  | ReferenceProperty
  | ObjectReferenceProperty
  | ListProperty
  | OtherProperty
deriving DecidableEq

/-- Modelled from the spec: a property definition, exposing its class and, for
list properties, the class of the declared contained element
(`getattr(prop_obj, "contained", None)` — `none` when the attribute is absent). -/
structure PropDef where
  cls : PropClass
  contained : Option PropClass := none
deriving DecidableEq

/-- A candidate registerable type: its `_type` identifier, its `_properties`
mapping, the optional `_toplevel_properties` mapping (extensions only), and
whether it is a subclass of `_DomainObject` (the sanctioned-declaration
marker checked by `_register_object`). -/
structure StixClass where
  type : String
  properties : List (String × PropDef)
  toplevel_properties : Option (List (String × PropDef)) := none
  isDomainObjectSubclass : Bool := false
deriving DecidableEq

/-- The distinct failure outcomes of the registration core.  Each constructor
corresponds to one raise site (`ValueError` sites are distinguished by their
message in the source); `attributeError` and `keyError` are the runtime
errors Python itself raises on the corresponding operations. -/
inductive RegError where
  | notCustomObject (typeName : String)
  | badPropName (propName : String)
  | badRefProp (propName : String)
  | badRefsProp (propName : String)
  | invalidTypeName (typeName : String)
  | badExtensionName (typeName : String)
  | emptyExtensionProps (typeName : String)
  | duplicateRegistration (category : String) (typeName : String)
  | attributeError (desc : String)
  | keyError (key : String)
deriving DecidableEq

/-- The four registration namespaces of one version's catalog. -/
inductive Ns where
  | objects
  | markings
  | observables
  | extensions
deriving DecidableEq

/-- Modelled from the spec: one version's catalog in `registry.STIX2_OBJ_MAPS`,
holding the four independent namespaces. -/
structure VersionMaps where
  objects : List (String × StixClass)
  markings : List (String × StixClass)
  observables : List (String × StixClass)
  extensions : List (String × StixClass)
deriving DecidableEq

/-- The registry state: `registry.STIX2_OBJ_MAPS`, one catalog per version. -/
abbrev RegistryState := List (String × VersionMaps)

/-- Python `dict` lookup over an association list (first matching key). -/
def dlookup {α : Type} (k : String) : List (String × α) → Option α
  | [] => none
  | p :: rest => if p.1 = k then some p.2 else dlookup k rest

/-- Replace the value stored under key `s` (mutation of one slot of a dict). -/
def setKey {α : Type} (s : String) (m : α) : List (String × α) → List (String × α)
  | [] => []
  | p :: rest => if p.1 = s then (s, m) :: setKey s m rest else p :: setKey s m rest

/-- Membership of a class in a tuple of classes (the second argument of a
Python `isinstance` test). -/
def listContains (c : PropClass) : List PropClass → Bool
  | [] => false
  | x :: rest => if x = c then true else listContains c rest

/-- `prop_name.rsplit("_", 1)[-1]`: the text after the final underscore, or
the whole string when it has no underscore. -/
def rsplitTail (s : String) : String :=
  ⟨((s.data.reverse.takeWhile (fun c => c ≠ '_')).reverse)⟩

/-- Python `str.startswith`. -/
def strStartsWith (s pre : String) : Bool :=
  pre.data.isPrefixOf s.data

/-- Python `str.endswith`. -/
def strEndsWith (s suf : String) : Bool :=
  suf.data.isSuffixOf s.data

/-- Modelled from the spec: `re.match(PREFIX_21_REGEX, prop_name)`.
`PREFIX_21_REGEX` lives in the external `utils` module; the spec states the
rule as "begins with an alphabetic character". -/
def beginsWithAlpha (s : String) : Bool :=
  match s.data with
  | [] => false
  | c :: _ => c.isAlpha

/-- A hexadecimal digit. -/
def isHexChar (c : Char) : Bool :=
  c.isDigit || (decide ('a' ≤ c) && decide (c ≤ 'f')) || (decide ('A' ≤ c) && decide (c ≤ 'F'))

/-- Modelled from the spec: a UUID-shaped token — five hyphen-separated groups
of hexadecimal digits with lengths 8, 4, 4, 4, 12 (36 characters total). -/
def isUuidShaped (s : String) : Bool :=
  (s.data.length == 36) &&
  (List.range 36).all (fun i =>
    if i == 8 || i == 13 || i == 18 || i == 23 then s.data.getD i ' ' == '-'
    else isHexChar (s.data.getD i ' '))

/-- Modelled from the spec: `version.DEFAULT_VERSION`, the process-wide
default specification version (the newest baseline). -/
def DEFAULT_VERSION : String := "2.1"

/-- An instance of the external identifier-shape predicate `_validate_type`
that accepts every identifier (used to exercise the registration paths that
do not depend on the external grammar). -/
def permissiveValidType : String → Option String → Bool := fun _ _ => true

/-- `_VERSION_REF_TYPES_MAP`: the static version-to-accepted-reference-shapes
table of `registration.py`. -/
def _VERSION_REF_TYPES_MAP : List (String × List PropClass) :=
  [("2.0", [PropClass.ObjectReferenceProperty, PropClass.ReferenceProperty]),
   ("2.1", [PropClass.ReferenceProperty])]

/-- `_UNKNOWN_VERSION_REF_TYPES = _VERSION_REF_TYPES_MAP["2.1"]`. -/
def _UNKNOWN_VERSION_REF_TYPES : List PropClass :=
  (dlookup "2.1" _VERSION_REF_TYPES_MAP).getD []

/-- The `try: _VERSION_REF_TYPES_MAP[version] except KeyError:` resolution at
the top of `_validate_ref_props`.  A `none` version (Python `None`) is not a
key of the table, so it also falls back to the unknown-version entry. -/
def refTypesFor (version : Option String) : List PropClass :=
  match version with
  | some s =>
    match dlookup s _VERSION_REF_TYPES_MAP with
    | some ts => ts
    | none => _UNKNOWN_VERSION_REF_TYPES
  | none => _UNKNOWN_VERSION_REF_TYPES

/-- `isinstance(prop_obj, ref_prop_types)` for a property definition. -/
def isinstanceOf (prop_obj : PropDef) (classes : List PropClass) : Bool :=
  listContains prop_obj.cls classes

/-- `isinstance(getattr(prop_obj, "contained", None), ref_prop_types)`:
`isinstance(None, ...)` is `False`. -/
def containedIsinstanceOf (contained : Option PropClass) (classes : List PropClass) : Bool :=
  match contained with
  | some c => listContains c classes
  | none => false

/-- The body of the loop in `_validate_ref_props`, for one property. -/
def _check_ref_prop (ref_prop_types : List PropClass) (prop_name : String)
    (prop_obj : PropDef) : Except RegError Unit :=
  if rsplitTail prop_name = "ref" ∧ isinstanceOf prop_obj ref_prop_types = false then
    Except.error (RegError.badRefProp prop_name)
  else if rsplitTail prop_name = "refs" ∧
      (isinstanceOf prop_obj [PropClass.ListProperty] &&
        containedIsinstanceOf prop_obj.contained ref_prop_types) = false then
    Except.error (RegError.badRefsProp prop_name)
  else
    Except.ok ()

/-- Run a per-property check over `props_map.items()`, raising at the first
failure (Python `for` loop with `raise`). -/
def validateAll (f : String → PropDef → Except RegError Unit) :
    List (String × PropDef) → Except RegError Unit
  | [] => Except.ok ()
  | (n, p) :: rest =>
    match f n p with
    | Except.error e => Except.error e
    | Except.ok _ => validateAll f rest

/-- `_validate_ref_props(props_map, version)`. -/
def _validate_ref_props (props_map : List (String × PropDef)) (version : Option String) :
    Except RegError Unit :=
  validateAll (_check_ref_prop (refTypesFor version)) props_map

/-- The body of the naming loop of `_validate_props`, for one property name. -/
def _check_prop_name (prop_name : String) : Except RegError Unit :=
  if beginsWithAlpha prop_name then Except.ok ()
  else Except.error (RegError.badPropName prop_name)

/-- `_validate_props(props_map, version)`: the naming rule for every version
other than `"2.0"`, then the reference-typing rule. -/
def _validate_props (props_map : List (String × PropDef)) (version : Option String) :
    Except RegError Unit :=
  match (if version = some "2.0" then Except.ok ()
         else validateAll (fun prop_name _ => _check_prop_name prop_name) props_map) with
  | Except.error e => Except.error e
  | Except.ok _ => _validate_ref_props props_map version

/-- Python dict merge `{**a, **b}`: keys of `a` in order with `b`'s value
taking precedence on overlap, then the keys of `b` not present in `a`. -/
def dictMerge (a b : List (String × PropDef)) : List (String × PropDef) :=
  a.map (fun p => match dlookup p.1 b with | some v => (p.1, v) | none => p)
    ++ b.filter (fun p => (dlookup p.1 a).isNone)

/-- `getattr(new_extension, "_toplevel_properties", dict())`. -/
def getattrToplevel (c : StixClass) : List (String × PropDef) :=
  c.toplevel_properties.getD []

/-- The 2.1 extension naming condition of `_register_extension`:
`ext_type.endswith('-ext') or ext_type.startswith('extension-definition--')`. -/
def ext_name_ok (ext_type : String) : Bool :=
  strEndsWith ext_type "-ext" || strStartsWith ext_type "extension-definition--"

/-- `if not version: version = version.DEFAULT_VERSION` as it executes in
`_register_object` / `_register_marking` / `_register_observable`: the
parameter `version` shadows the imported `version` module inside the function
body, so when the argument is falsy (`None` or the empty string) the
attribute access `version.DEFAULT_VERSION` is performed on that falsy
argument itself and raises `AttributeError`. -/
def resolveVersionArg : Option String → Except RegError String
  | some v => if v = "" then Except.error (RegError.attributeError "str") else Except.ok v
  | none => Except.error (RegError.attributeError "NoneType")

/-- Select one namespace of a catalog (`['objects']`, `['markings']`, ...). -/
def VersionMaps.get (m : VersionMaps) : Ns → List (String × StixClass)
  | Ns.objects => m.objects
  | Ns.markings => m.markings
  | Ns.observables => m.observables
  | Ns.extensions => m.extensions

/-- Replace one namespace of a catalog. -/
def VersionMaps.set (m : VersionMaps) : Ns → List (String × StixClass) → VersionMaps
  | Ns.objects, x => { m with objects := x }
  | Ns.markings, x => { m with markings := x }
  | Ns.observables, x => { m with observables := x }
  | Ns.extensions, x => { m with extensions := x }

/-- The shared store tail of the four registration operations:
`MAP = registry.STIX2_OBJ_MAPS[version][ns]`, duplicate check, insertion. -/
def storeIn (category : String) (ns : Ns) (v : String) (t : StixClass)
    (st : RegistryState) : RegistryState × Option RegError :=
  match dlookup v st with
  | none => (st, some (RegError.keyError v))
  | some m =>
    if (dlookup t.type (m.get ns)).isSome then
      (st, some (RegError.duplicateRegistration category t.type))
    else
      (setKey v (m.set ns (m.get ns ++ [(t.type, t)])) st, none)

/-- `_register_object(new_type, version)`. -/
def _register_object (new_type : StixClass) (version : Option String)
    (st : RegistryState) : RegistryState × Option RegError :=
  if !new_type.isDomainObjectSubclass then
    (st, some (RegError.notCustomObject new_type.type))
  else
    match resolveVersionArg version with
    | Except.error e => (st, some e)
    | Except.ok v =>
      match _validate_props new_type.properties (some v) with
      | Except.error e => (st, some e)
      | Except.ok _ => storeIn "STIX Object" Ns.objects v new_type st

/-- `_register_marking(new_marking, version)`; `validType` stands in for the
external `_validate_type` identifier-shape predicate. -/
def _register_marking (validType : String → Option String → Bool)
    (new_marking : StixClass) (version : Option String)
    (st : RegistryState) : RegistryState × Option RegError :=
  match resolveVersionArg version with
  | Except.error e => (st, some e)
  | Except.ok v =>
    if !(validType new_marking.type (some v)) then
      (st, some (RegError.invalidTypeName new_marking.type))
    else
      match _validate_props new_marking.properties (some v) with
      | Except.error e => (st, some e)
      | Except.ok _ => storeIn "STIX Marking" Ns.markings v new_marking st

/-- `_register_observable(new_observable, version)`. -/
def _register_observable (new_observable : StixClass) (version : Option String)
    (st : RegistryState) : RegistryState × Option RegError :=
  match resolveVersionArg version with
  | Except.error e => (st, some e)
  | Except.ok v =>
    match _validate_props new_observable.properties (some v) with
    | Except.error e => (st, some e)
    | Except.ok _ => storeIn "Cyber Observable" Ns.observables v new_observable st

/-- `_register_extension(new_extension, version)`: identifier-shape check,
2.1-only naming check, merge of `_properties` with `_toplevel_properties`,
emptiness check, property validation, then the store tail.  The raw `version`
argument (never resolved in this function) is what reaches `_validate_type`,
the `== "2.1"` comparison, `_validate_props` and the registry subscript. -/
def _register_extension (validType : String → Option String → Bool)
    (new_extension : StixClass) (version : Option String)
    (st : RegistryState) : RegistryState × Option RegError :=
  if !(validType new_extension.type version) then
    (st, some (RegError.invalidTypeName new_extension.type))
  else if version = some "2.1" ∧ ext_name_ok new_extension.type = false then
    (st, some (RegError.badExtensionName new_extension.type))
  else if (dictMerge new_extension.properties (getattrToplevel new_extension)).isEmpty then
    (st, some (RegError.emptyExtensionProps new_extension.type))
  else
    match _validate_props (dictMerge new_extension.properties (getattrToplevel new_extension)) version with
    | Except.error e => (st, some e)
    | Except.ok _ =>
      match version with
      | none => (st, some (RegError.keyError "None"))
      | some v => storeIn "Extension" Ns.extensions v new_extension st

/-- Modelled from the spec: the catalogs are created empty at process start,
one per known baseline version. -/
def emptyMaps : VersionMaps := ⟨[], [], [], []⟩

/-- Modelled from the spec: the initial `registry.STIX2_OBJ_MAPS`. -/
def initialRegistry : RegistryState := [("2.0", emptyMaps), ("2.1", emptyMaps)]

/-! ### Helper lemmas about the embedded primitives -/

theorem except_unit_cases (r : Except RegError Unit) :
    r = Except.ok () ∨ ∃ e, r = Except.error e := by
  cases r with
  | ok u => cases u; exact Or.inl rfl
  | error e => exact Or.inr ⟨e, rfl⟩

theorem validateAll_ok_iff (f : String → PropDef → Except RegError Unit)
    (props : List (String × PropDef)) :
    validateAll f props = Except.ok () ↔ ∀ p ∈ props, f p.1 p.2 = Except.ok () := by
  induction props with
  | nil => simp [validateAll]
  | cons hd tl ih =>
    obtain ⟨n, p⟩ := hd
    cases h : f n p with
    | error e => simp [validateAll, h, List.forall_mem_cons]
    | ok u =>
      cases u
      simp [validateAll, h, ih, List.forall_mem_cons]

theorem validateAll_error_mem (f : String → PropDef → Except RegError Unit)
    (props : List (String × PropDef)) (e : RegError)
    (h : validateAll f props = Except.error e) :
    ∃ p ∈ props, f p.1 p.2 = Except.error e := by
  induction props with
  | nil => simp [validateAll] at h
  | cons hd tl ih =>
    obtain ⟨n, p⟩ := hd
    cases hf : f n p with
    | error e' =>
      simp only [validateAll, hf] at h
      injection h with h'
      exact ⟨(n, p), List.mem_cons_self _ _, by rw [hf, h']⟩
    | ok u =>
      cases u
      simp only [validateAll, hf] at h
      obtain ⟨q, hq, hfq⟩ := ih h
      exact ⟨q, List.mem_cons_of_mem _ hq, hfq⟩

theorem dlookup_append_right {α : Type} (k : String) (l1 l2 : List (String × α))
    (h : dlookup k l1 = none) : dlookup k (l1 ++ l2) = dlookup k l2 := by
  induction l1 with
  | nil => simp
  | cons hd tl ih =>
    rw [List.cons_append]
    by_cases hk : hd.1 = k
    · simp only [dlookup, if_pos hk] at h
      cases h
    · simp only [dlookup, if_neg hk] at h ⊢
      exact ih h

theorem dlookup_singleton_self {α : Type} (k : String) (x : α) :
    dlookup k [(k, x)] = some x := by
  simp [dlookup]

theorem dlookup_some_mem {α : Type} (k : String) (l : List (String × α)) (x : α)
    (h : dlookup k l = some x) : (k, x) ∈ l := by
  induction l with
  | nil => simp [dlookup] at h
  | cons hd tl ih =>
    obtain ⟨a, b⟩ := hd
    simp only [dlookup] at h
    by_cases hk : a = k
    · subst hk
      rw [if_pos rfl] at h
      injection h with h'
      subst h'
      exact List.mem_cons_self _ _
    · rw [if_neg (by simpa using hk)] at h
      exact List.mem_cons_of_mem _ (ih h)

theorem dlookup_none_keys {α : Type} (k : String) (l : List (String × α))
    (h : dlookup k l = none) : k ∉ l.map Prod.fst := by
  induction l with
  | nil => simp
  | cons hd tl ih =>
    obtain ⟨a, b⟩ := hd
    simp only [dlookup] at h
    by_cases hk : a = k
    · rw [if_pos (by simpa using hk)] at h
      cases h
    · rw [if_neg (by simpa using hk)] at h
      simp only [List.map_cons, List.mem_cons]
      rintro (rfl | hmem)
      · exact hk rfl
      · exact ih h hmem

theorem dlookup_setKey_self {α : Type} (s : String) (m : α) (l : List (String × α))
    (h : (dlookup s l).isSome = true) : dlookup s (setKey s m l) = some m := by
  induction l with
  | nil => simp [dlookup] at h
  | cons hd tl ih =>
    obtain ⟨a, b⟩ := hd
    by_cases hk : a = s
    · subst hk
      simp [setKey, dlookup]
    · simp only [dlookup, setKey, hk, if_false, if_neg (by simpa using hk)] at h ⊢
      exact ih h

theorem dlookup_setKey_other {α : Type} (s : String) (m : α) (l : List (String × α))
    (k : String) (h : k ≠ s) : dlookup k (setKey s m l) = dlookup k l := by
  induction l with
  | nil => simp [setKey]
  | cons hd tl ih =>
    obtain ⟨a, b⟩ := hd
    by_cases hk : a = s
    · have hak : ¬(a = k) := by rw [hk]; exact Ne.symm h
      simp [setKey, dlookup, hk, Ne.symm h, hak, ih]
    · simp [setKey, dlookup, hk, ih]

theorem mem_setKey {α : Type} (s : String) (m : α) (l : List (String × α)) (q : String × α)
    (h : q ∈ setKey s m l) : q = (s, m) ∨ q ∈ l := by
  induction l with
  | nil => simp [setKey] at h
  | cons hd tl ih =>
    by_cases hk : hd.1 = s
    · simp only [setKey, if_pos hk] at h
      rcases List.mem_cons.mp h with h1 | h2
      · exact Or.inl h1
      · rcases ih h2 with h3 | h4
        · exact Or.inl h3
        · exact Or.inr (List.mem_cons_of_mem _ h4)
    · simp only [setKey, if_neg hk] at h
      rcases List.mem_cons.mp h with h1 | h2
      · exact Or.inr (h1 ▸ List.mem_cons_self _ _)
      · rcases ih h2 with h3 | h4
        · exact Or.inl h3
        · exact Or.inr (List.mem_cons_of_mem _ h4)

theorem nodup_append_single {α : Type} (l : List α) (k : α)
    (h1 : l.Nodup) (h2 : k ∉ l) : (l ++ [k]).Nodup := by
  induction l with
  | nil => simp
  | cons a tl ih =>
    rw [List.cons_append, List.nodup_cons]
    rw [List.nodup_cons] at h1
    refine ⟨?_, ih h1.2 (fun hm => h2 (List.mem_cons_of_mem _ hm))⟩
    simp only [List.mem_append, List.mem_singleton]
    rintro (ha | rfl)
    · exact h1.1 ha
    · exact h2 (List.mem_cons_self _ _)

theorem VersionMaps.get_set_self (m : VersionMaps) (ns : Ns) (x : List (String × StixClass)) :
    (m.set ns x).get ns = x := by
  cases ns <;> rfl

theorem VersionMaps.get_set_other (m : VersionMaps) (ns ns' : Ns) (x : List (String × StixClass))
    (h : ns' ≠ ns) : (m.set ns x).get ns' = m.get ns' := by
  cases ns <;> cases ns' <;> first | rfl | exact absurd rfl h

theorem isSome_false_eq_none {α : Type} {o : Option α} (h : o.isSome = false) : o = none := by
  cases o with
  | none => rfl
  | some x => simp at h

/-- All four per-version catalogs have no duplicate identifiers in any
namespace: the registry invariant. -/
def catalogsNodup (st : RegistryState) : Prop :=
  ∀ p ∈ st, ∀ ns : Ns, ((p.2.get ns).map Prod.fst).Nodup

theorem storeIn_err_state (c : String) (ns : Ns) (v : String) (t : StixClass)
    (st : RegistryState) :
    (storeIn c ns v t st).1 = st ∨ (storeIn c ns v t st).2 = none := by
  cases hm : dlookup v st with
  | none => simp [storeIn, hm]
  | some m =>
    cases hd : (dlookup t.type (m.get ns)).isSome with
    | true => simp [storeIn, hm, hd]
    | false => simp [storeIn, hm, hd]

theorem storeIn_ok_inv {c : String} {ns : Ns} {v : String} {t : StixClass}
    {st st1 : RegistryState} (h : storeIn c ns v t st = (st1, none)) :
    ∃ m, dlookup v st = some m ∧ (dlookup t.type (m.get ns)).isSome = false ∧
      st1 = setKey v (m.set ns (m.get ns ++ [(t.type, t)])) st := by
  cases hm : dlookup v st with
  | none => simp [storeIn, hm] at h
  | some m =>
    cases hd : (dlookup t.type (m.get ns)).isSome with
    | true => simp [storeIn, hm, hd] at h
    | false =>
      simp only [storeIn, hm, hd, Bool.false_eq_true, if_false, Prod.mk.injEq] at h
      exact ⟨m, rfl, hd, h.1.symm⟩

theorem storeIn_dup {c : String} {ns : Ns} {v : String} {t : StixClass}
    {st st1 : RegistryState} (h : storeIn c ns v t st = (st1, none)) :
    storeIn c ns v t st1 = (st1, some (RegError.duplicateRegistration c t.type)) := by
  obtain ⟨m, hm, hd, hst1⟩ := storeIn_ok_inv h
  subst hst1
  have h1 : dlookup v (setKey v (m.set ns (m.get ns ++ [(t.type, t)])) st)
      = some (m.set ns (m.get ns ++ [(t.type, t)])) :=
    dlookup_setKey_self _ _ _ (by rw [hm]; rfl)
  have h2 : dlookup t.type ((m.set ns (m.get ns ++ [(t.type, t)])).get ns) = some t := by
    rw [VersionMaps.get_set_self,
      dlookup_append_right _ _ _ (isSome_false_eq_none hd), dlookup_singleton_self]
  simp [storeIn, h1, h2]

theorem storeIn_other_version {c : String} {ns : Ns} {v : String} {t : StixClass}
    {c' : String} {ns' : Ns} {v' : String} {t' : StixClass} {st st1 r : RegistryState}
    (h1 : storeIn c ns v t st = (st1, none)) (hne : v' ≠ v)
    (h2 : storeIn c' ns' v' t' st = (r, none)) :
    ∃ st2, storeIn c' ns' v' t' st1 = (st2, none) := by
  obtain ⟨m, hm, hd, hst1⟩ := storeIn_ok_inv h1
  obtain ⟨m2, hm2, hd2, _⟩ := storeIn_ok_inv h2
  subst hst1
  have h3 : dlookup v' (setKey v (m.set ns (m.get ns ++ [(t.type, t)])) st) = some m2 := by
    rw [dlookup_setKey_other _ _ _ _ hne, hm2]
  refine ⟨setKey v' (m2.set ns' (m2.get ns' ++ [(t'.type, t')]))
    (setKey v (m.set ns (m.get ns ++ [(t.type, t)])) st), ?_⟩
  simp [storeIn, h3, hd2]

theorem storeIn_preserves_nodup {c : String} {ns : Ns} {v : String} {t : StixClass}
    {st st1 : RegistryState} {r : Option RegError}
    (h : storeIn c ns v t st = (st1, r)) (hnd : catalogsNodup st) :
    catalogsNodup st1 := by
  rcases storeIn_err_state c ns v t st with h1 | h2
  · rw [h] at h1
    rw [← h1] at hnd
    exact hnd
  · rw [h] at h2
    subst h2
    obtain ⟨m, hm, hd, hst1⟩ := storeIn_ok_inv h
    subst hst1
    intro q hq ns'
    rcases mem_setKey _ _ _ _ hq with heq | hmem
    · subst heq
      have hmnd := hnd (v, m) (dlookup_some_mem _ _ _ hm)
      by_cases hns : ns' = ns
      · subst hns
        rw [VersionMaps.get_set_self, List.map_append]
        exact nodup_append_single _ _ (hmnd ns')
          (dlookup_none_keys _ _ (isSome_false_eq_none hd))
      · rw [VersionMaps.get_set_other _ _ _ _ hns]
        exact hmnd ns'
    · exact hnd q hmem ns'

theorem register_object_err_state (t : StixClass) (v : Option String) (st : RegistryState) :
    (_register_object t v st).1 = st ∨ (_register_object t v st).2 = none := by
  cases hflag : t.isDomainObjectSubclass with
  | false => simp [_register_object, hflag]
  | true =>
    cases hres : resolveVersionArg v with
    | error e => simp [_register_object, hflag, hres]
    | ok s =>
      cases hval : _validate_props t.properties (some s) with
      | error e => simp [_register_object, hflag, hres, hval]
      | ok u =>
        cases u
        simpa [_register_object, hflag, hres, hval] using
          storeIn_err_state "STIX Object" Ns.objects s t st

theorem register_object_ok_inv {t : StixClass} {v : Option String} {st st1 : RegistryState}
    (h : _register_object t v st = (st1, none)) :
    t.isDomainObjectSubclass = true ∧ ∃ s, resolveVersionArg v = Except.ok s ∧
      _validate_props t.properties (some s) = Except.ok () ∧
      storeIn "STIX Object" Ns.objects s t st = (st1, none) := by
  cases hflag : t.isDomainObjectSubclass with
  | false => simp [_register_object, hflag] at h
  | true =>
    refine ⟨rfl, ?_⟩
    cases hres : resolveVersionArg v with
    | error e => simp [_register_object, hflag, hres] at h
    | ok s =>
      cases hval : _validate_props t.properties (some s) with
      | error e => simp [_register_object, hflag, hres, hval] at h
      | ok u =>
        cases u
        refine ⟨s, rfl, hval, ?_⟩
        simpa [_register_object, hflag, hres, hval] using h

theorem register_object_eq_store {t : StixClass} {v : Option String} {s : String}
    (hflag : t.isDomainObjectSubclass = true)
    (hres : resolveVersionArg v = Except.ok s)
    (hval : _validate_props t.properties (some s) = Except.ok ())
    (st' : RegistryState) :
    _register_object t v st' = storeIn "STIX Object" Ns.objects s t st' := by
  simp [_register_object, hflag, hres, hval]

theorem register_marking_err_state (vt : String → Option String → Bool) (t : StixClass)
    (v : Option String) (st : RegistryState) :
    (_register_marking vt t v st).1 = st ∨ (_register_marking vt t v st).2 = none := by
  cases hres : resolveVersionArg v with
  | error e => simp [_register_marking, hres]
  | ok s =>
    cases hvt : vt t.type (some s) with
    | false => simp [_register_marking, hres, hvt]
    | true =>
      cases hval : _validate_props t.properties (some s) with
      | error e => simp [_register_marking, hres, hvt, hval]
      | ok u =>
        cases u
        simpa [_register_marking, hres, hvt, hval] using
          storeIn_err_state "STIX Marking" Ns.markings s t st

theorem register_marking_ok_inv {vt : String → Option String → Bool} {t : StixClass}
    {v : Option String} {st st1 : RegistryState}
    (h : _register_marking vt t v st = (st1, none)) :
    ∃ s, resolveVersionArg v = Except.ok s ∧ vt t.type (some s) = true ∧
      _validate_props t.properties (some s) = Except.ok () ∧
      storeIn "STIX Marking" Ns.markings s t st = (st1, none) := by
  cases hres : resolveVersionArg v with
  | error e => simp [_register_marking, hres] at h
  | ok s =>
    cases hvt : vt t.type (some s) with
    | false => simp [_register_marking, hres, hvt] at h
    | true =>
      cases hval : _validate_props t.properties (some s) with
      | error e => simp [_register_marking, hres, hvt, hval] at h
      | ok u =>
        cases u
        refine ⟨s, by simp [hres], by simp [hvt], by simp [hval], ?_⟩
        simpa [_register_marking, hres, hvt, hval] using h

theorem register_marking_eq_store {vt : String → Option String → Bool} {t : StixClass}
    {v : Option String} {s : String}
    (hres : resolveVersionArg v = Except.ok s)
    (hvt : vt t.type (some s) = true)
    (hval : _validate_props t.properties (some s) = Except.ok ())
    (st' : RegistryState) :
    _register_marking vt t v st' = storeIn "STIX Marking" Ns.markings s t st' := by
  simp [_register_marking, hres, hvt, hval]

theorem register_observable_err_state (t : StixClass) (v : Option String) (st : RegistryState) :
    (_register_observable t v st).1 = st ∨ (_register_observable t v st).2 = none := by
  cases hres : resolveVersionArg v with
  | error e => simp [_register_observable, hres]
  | ok s =>
    cases hval : _validate_props t.properties (some s) with
    | error e => simp [_register_observable, hres, hval]
    | ok u =>
      cases u
      simpa [_register_observable, hres, hval] using
        storeIn_err_state "Cyber Observable" Ns.observables s t st

theorem register_observable_ok_inv {t : StixClass} {v : Option String} {st st1 : RegistryState}
    (h : _register_observable t v st = (st1, none)) :
    ∃ s, resolveVersionArg v = Except.ok s ∧
      _validate_props t.properties (some s) = Except.ok () ∧
      storeIn "Cyber Observable" Ns.observables s t st = (st1, none) := by
  cases hres : resolveVersionArg v with
  | error e => simp [_register_observable, hres] at h
  | ok s =>
    cases hval : _validate_props t.properties (some s) with
    | error e => simp [_register_observable, hres, hval] at h
    | ok u =>
      cases u
      refine ⟨s, rfl, hval, ?_⟩
      simpa [_register_observable, hres, hval] using h

theorem register_observable_eq_store {t : StixClass} {v : Option String} {s : String}
    (hres : resolveVersionArg v = Except.ok s)
    (hval : _validate_props t.properties (some s) = Except.ok ())
    (st' : RegistryState) :
    _register_observable t v st' = storeIn "Cyber Observable" Ns.observables s t st' := by
  simp [_register_observable, hres, hval]

theorem register_extension_err_state (vt : String → Option String → Bool) (t : StixClass)
    (v : Option String) (st : RegistryState) :
    (_register_extension vt t v st).1 = st ∨ (_register_extension vt t v st).2 = none := by
  cases hvt : vt t.type v with
  | false => simp [_register_extension, hvt]
  | true =>
    cases v with
    | none =>
      cases hemp : (dictMerge t.properties (getattrToplevel t)).isEmpty with
      | true => simp [_register_extension, hvt, hemp]
      | false =>
        cases hval : _validate_props (dictMerge t.properties (getattrToplevel t)) none with
        | error e => simp [_register_extension, hvt, hemp, hval]
        | ok u => cases u; simp [_register_extension, hvt, hemp, hval]
    | some s =>
      by_cases hname : s = "2.1" ∧ ext_name_ok t.type = false
      · obtain ⟨hv, hok⟩ := hname
        subst hv
        simp [_register_extension, hvt, hok]
      · cases hemp : (dictMerge t.properties (getattrToplevel t)).isEmpty with
        | true => simp [_register_extension, hvt, hname, hemp]
        | false =>
          cases hval : _validate_props (dictMerge t.properties (getattrToplevel t)) (some s) with
          | error e => simp [_register_extension, hvt, hname, hemp, hval]
          | ok u =>
            cases u
            simpa [_register_extension, hvt, hname, hemp, hval] using
              storeIn_err_state "Extension" Ns.extensions s t st

theorem register_extension_ok_inv {vt : String → Option String → Bool} {t : StixClass}
    {v : Option String} {st st1 : RegistryState}
    (h : _register_extension vt t v st = (st1, none)) :
    vt t.type v = true
    ∧ ¬(v = some "2.1" ∧ ext_name_ok t.type = false)
    ∧ (dictMerge t.properties (getattrToplevel t)).isEmpty = false
    ∧ _validate_props (dictMerge t.properties (getattrToplevel t)) v = Except.ok ()
    ∧ ∃ s, v = some s ∧ storeIn "Extension" Ns.extensions s t st = (st1, none) := by
  cases hvt : vt t.type v with
  | false => simp [_register_extension, hvt] at h
  | true =>
    cases v with
    | none =>
      cases hemp : (dictMerge t.properties (getattrToplevel t)).isEmpty with
      | true => simp [_register_extension, hvt, hemp] at h
      | false =>
        cases hval : _validate_props (dictMerge t.properties (getattrToplevel t)) none with
        | error e => simp [_register_extension, hvt, hemp, hval] at h
        | ok u => cases u; simp [_register_extension, hvt, hemp, hval] at h
    | some s =>
      by_cases hname : s = "2.1" ∧ ext_name_ok t.type = false
      · obtain ⟨hv, hok⟩ := hname
        subst hv
        simp [_register_extension, hvt, hok] at h
      · cases hemp : (dictMerge t.properties (getattrToplevel t)).isEmpty with
        | true => simp [_register_extension, hvt, hname, hemp] at h
        | false =>
          cases hval : _validate_props (dictMerge t.properties (getattrToplevel t)) (some s) with
          | error e => simp [_register_extension, hvt, hname, hemp, hval] at h
          | ok u =>
            cases u
            refine ⟨by simp [hvt], by simpa using hname, by simp [hemp], by simp [hval],
              s, rfl, ?_⟩
            simpa [_register_extension, hvt, hname, hemp, hval] using h

theorem register_extension_eq_store {vt : String → Option String → Bool} {t : StixClass}
    {s : String}
    (hvt : vt t.type (some s) = true)
    (hname : ¬(some s = some "2.1" ∧ ext_name_ok t.type = false))
    (hemp : (dictMerge t.properties (getattrToplevel t)).isEmpty = false)
    (hval : _validate_props (dictMerge t.properties (getattrToplevel t)) (some s) = Except.ok ())
    (st' : RegistryState) :
    _register_extension vt t (some s) st' = storeIn "Extension" Ns.extensions s t st' := by
  have hname' : ¬(s = "2.1" ∧ ext_name_ok t.type = false) := by simpa using hname
  simp [_register_extension, hvt, hname', hemp, hval]

theorem resolveVersionArg_ok {w : Option String} {s : String}
    (h : resolveVersionArg w = Except.ok s) : w = some s := by
  cases w with
  | none => simp [resolveVersionArg] at h
  | some x =>
    by_cases hx : x = ""
    · subst hx
      simp [resolveVersionArg] at h
    · simp only [resolveVersionArg, if_neg hx] at h
      injection h with h'
      rw [h']

theorem check_prop_name_err {n : String} {e : RegError}
    (h : _check_prop_name n = Except.error e) :
    e = RegError.badPropName n ∧ beginsWithAlpha n = false := by
  unfold _check_prop_name at h
  split at h
  · cases h
  · rename_i hb
    injection h with h'
    exact ⟨h'.symm, by simpa using hb⟩

theorem check_ref_prop_err {rt : List PropClass} {n : String} {p : PropDef} {e : RegError}
    (h : _check_ref_prop rt n p = Except.error e) :
    e = RegError.badRefProp n ∨ e = RegError.badRefsProp n := by
  unfold _check_ref_prop at h
  split at h
  · injection h with h'
    exact Or.inl h'.symm
  · split at h
    · injection h with h'
      exact Or.inr h'.symm
    · cases h

theorem validate_props_err_shape {props : List (String × PropDef)} {w : Option String}
    {e : RegError} (h : _validate_props props w = Except.error e) :
    (∃ n, e = RegError.badPropName n) ∨ (∃ n, e = RegError.badRefProp n)
    ∨ (∃ n, e = RegError.badRefsProp n) := by
  unfold _validate_props at h
  split at h
  · rename_i e1 heq
    injection h with h'
    subst h'
    split at heq
    · cases heq
    · obtain ⟨q, hq, hfq⟩ := validateAll_error_mem _ _ _ heq
      exact Or.inl ⟨q.1, (check_prop_name_err hfq).1⟩
  · unfold _validate_ref_props at h
    obtain ⟨q, hq, hfq⟩ := validateAll_error_mem _ _ _ h
    rcases check_ref_prop_err hfq with h1 | h1
    · exact Or.inr (Or.inl ⟨q.1, h1⟩)
    · exact Or.inr (Or.inr ⟨q.1, h1⟩)

theorem storeIn_err_shape {c : String} {ns : Ns} {v : String} {t : StixClass}
    {st : RegistryState} {e : RegError} (h : (storeIn c ns v t st).2 = some e) :
    e = RegError.keyError v ∨ e = RegError.duplicateRegistration c t.type := by
  cases hm : dlookup v st with
  | none =>
    simp [storeIn, hm] at h
    exact Or.inl h.symm
  | some m =>
    cases hd : (dlookup t.type (m.get ns)).isSome with
    | true =>
      simp [storeIn, hm, hd] at h
      exact Or.inr h.symm
    | false => simp [storeIn, hm, hd] at h

theorem dlookup_append_left {α : Type} (k : String) (l1 l2 : List (String × α)) (x : α)
    (h : dlookup k l1 = some x) : dlookup k (l1 ++ l2) = some x := by
  induction l1 with
  | nil => simp [dlookup] at h
  | cons hd tl ih =>
    rw [List.cons_append]
    simp only [dlookup] at h ⊢
    by_cases hk : hd.1 = k
    · rwa [if_pos hk] at h ⊢
    · rw [if_neg hk] at h ⊢
      exact ih h

theorem dlookup_map_merge (own top : List (String × PropDef)) (k : String) (w v : PropDef)
    (hown : dlookup k own = some w) (htop : dlookup k top = some v) :
    dlookup k (own.map (fun p => match dlookup p.1 top with | some x => (p.1, x) | none => p))
      = some v := by
  induction own with
  | nil => simp [dlookup] at hown
  | cons hd tl ih =>
    obtain ⟨a, b⟩ := hd
    by_cases hk : a = k
    · subst hk
      simp [dlookup, htop]
    · simp only [dlookup, if_neg hk] at hown
      cases hm : dlookup a top with
      | some x =>
        simp only [List.map_cons, hm]
        simp only [dlookup, if_neg hk]
        exact ih hown
      | none =>
        simp only [List.map_cons, hm]
        simp only [dlookup, if_neg hk]
        exact ih hown

theorem validateAll_names_error (props : List (String × PropDef))
    (hbad : ∃ p ∈ props, beginsWithAlpha p.1 = false) :
    ∃ nm, nm ∈ props.map Prod.fst ∧ beginsWithAlpha nm = false ∧
      validateAll (fun prop_name _ => _check_prop_name prop_name) props
        = Except.error (RegError.badPropName nm) := by
  induction props with
  | nil => simp at hbad
  | cons hd tl ih =>
    obtain ⟨n, p⟩ := hd
    cases hb : beginsWithAlpha n with
    | false =>
      refine ⟨n, by simp, hb, ?_⟩
      simp [validateAll, _check_prop_name, hb]
    | true =>
      have hbad' : ∃ q ∈ tl, beginsWithAlpha q.1 = false := by
        obtain ⟨q, hq, hqb⟩ := hbad
        rcases List.mem_cons.mp hq with rfl | hmem
        · simp [hb] at hqb
        · exact ⟨q, hmem, hqb⟩
      obtain ⟨nm, hmem, hnb, herr⟩ := ih hbad'
      refine ⟨nm, ?_, hnb, ?_⟩
      · simp only [List.map_cons, List.mem_cons]
        exact Or.inr hmem
      · have hcn : _check_prop_name n = Except.ok () := by simp [_check_prop_name, hb]
        simp only [validateAll, hcn, herr]

/-! ### Concrete inputs used by witnesses and counterexamples -/

/-- A property definition of a non-reference, non-list shape. -/
def otherProp : PropDef := { cls := PropClass.OtherProperty }

/-- A reference-shaped property definition. -/
def refProp : PropDef := { cls := PropClass.ReferenceProperty }

/-- A non-list property that nevertheless declares a reference-shaped
contained element. -/
def fakeListProp : PropDef :=
  { cls := PropClass.OtherProperty, contained := some PropClass.ReferenceProperty }

/-- A well-formed custom domain-object type. -/
def sampleObject : StixClass :=
  { type := "x-sample", properties := [("name", otherProp)], isDomainObjectSubclass := true }

/-- A well-formed custom marking type. -/
def sampleMarking : StixClass :=
  { type := "x-mark", properties := [("name", otherProp)] }

/-- A well-formed custom observable type. -/
def sampleObservable : StixClass :=
  { type := "x-obs", properties := [("name", otherProp)] }

/-- A candidate lacking the domain-object declaration marker, with a property
name that would also fail the naming rule. -/
def badNameObject : StixClass :=
  { type := "x-bad", properties := [("1bad", otherProp)], isDomainObjectSubclass := false }

/-- An extension whose identifier has the `extension-definition--` literal
prefix followed by text that is not UUID-shaped. -/
def extBadUuid : StixClass :=
  { type := "extension-definition--notauuid", properties := [("x", otherProp)] }

/-- An extension whose identifier has neither the `-ext` suffix nor the
`extension-definition--` prefix. -/
def extFooBar : StixClass :=
  { type := "foo-bar", properties := [("x", otherProp)] }

/-- The registry state after the sample domain object has been registered
under version "2.1". -/
def st1Sample : RegistryState :=
  (_register_object sampleObject (some "2.1") initialRegistry).1

/-! ### The claims -/

/-- C1: the claim states that a registration call with an unspecified (`None`)
version resolves to the process-wide default version and proceeds as if that
default had been passed.  The code instead raises `AttributeError` for domain
objects, markings and observables: inside each function the parameter
`version` shadows the imported `version` module, so the fallback
`version.DEFAULT_VERSION` is an attribute access on `None`.  Passing the
default version explicitly succeeds on the same inputs, exhibiting the
divergence. -/
theorem C1_none_version_raises_attribute_error :
    _register_object sampleObject none initialRegistry
      = (initialRegistry, some (RegError.attributeError "NoneType"))
    ∧ (_register_object sampleObject (some DEFAULT_VERSION) initialRegistry).2 = none
    ∧ _register_marking permissiveValidType sampleMarking none initialRegistry
      = (initialRegistry, some (RegError.attributeError "NoneType"))
    ∧ (_register_marking permissiveValidType sampleMarking (some DEFAULT_VERSION)
        initialRegistry).2 = none
    ∧ _register_observable sampleObservable none initialRegistry
      = (initialRegistry, some (RegError.attributeError "NoneType"))
    ∧ (_register_observable sampleObservable (some DEFAULT_VERSION) initialRegistry).2 = none :=
  ⟨rfl, rfl, rfl, rfl, rfl, rfl⟩

/-- C9: a domain-object registration whose candidate lacks the `_DomainObject`
declaration marker fails with the declaration error for every version
argument, every property set and every registry state — in particular before
any property validation or version resolution is performed. -/
theorem C9_declaration_marker_checked_first (t : StixClass) (v : Option String)
    (st : RegistryState) (h : t.isDomainObjectSubclass = false) :
    _register_object t v st = (st, some (RegError.notCustomObject t.type)) := by
  simp [_register_object, h]

/-- Witness for C9: a candidate with an invalid property name and a `None`
version still fails with the declaration error, untouched registry. -/
theorem C9_witness :
    badNameObject.isDomainObjectSubclass = false
    ∧ _register_object badNameObject none initialRegistry
      = (initialRegistry, some (RegError.notCustomObject "x-bad")) :=
  ⟨rfl, C9_declaration_marker_checked_first badNameObject none initialRegistry rfl⟩

/-- C10: in the merged property set `{**_properties, **_toplevel_properties}`
computed (then emptiness-checked, validated and registered) by
`_register_extension`, a key present in both mappings is bound to the
top-level mapping's value. -/
theorem C10_toplevel_wins (own top : List (String × PropDef)) (k : String)
    (w v : PropDef) (hown : dlookup k own = some w) (htop : dlookup k top = some v) :
    dlookup k (dictMerge own top) = some v := by
  unfold dictMerge
  exact dlookup_append_left _ _ _ _ (dlookup_map_merge own top k w v hown htop)

/-- Witness for C10: merging `x ↦ otherProp` with top-level `x ↦ refProp`
yields `x ↦ refProp`. -/
theorem C10_witness :
    (dlookup "x" [("x", otherProp)] = some otherProp
     ∧ dlookup "x" [("x", refProp)] = some refProp)
    ∧ dlookup "x" (dictMerge [("x", otherProp)] [("x", refProp)]) = some refProp :=
  ⟨⟨rfl, rfl⟩, C10_toplevel_wins [("x", otherProp)] [("x", refProp)] "x" otherProp refProp rfl rfl⟩

/-- C8: a property whose name's text after the final underscore is neither
`ref` nor `refs` passes the reference-typing rule whatever its definition. -/
theorem C8_non_ref_names_exempt (v : Option String) (name : String) (p : PropDef)
    (h1 : rsplitTail name ≠ "ref") (h2 : rsplitTail name ≠ "refs") :
    _check_ref_prop (refTypesFor v) name p = Except.ok () := by
  simp [_check_ref_prop, h1, h2]

/-- Witness for C8: `ref_count` (tail `count`) passes with a non-reference
definition under "2.1". -/
theorem C8_witness :
    (rsplitTail "ref_count" ≠ "ref" ∧ rsplitTail "ref_count" ≠ "refs")
    ∧ _check_ref_prop (refTypesFor (some "2.1")) "ref_count" otherProp = Except.ok () :=
  ⟨⟨by decide, by decide⟩,
   C8_non_ref_names_exempt (some "2.1") "ref_count" otherProp (by decide) (by decide)⟩

/-- C7: a property whose name's tail is `refs` passes the reference-typing
rule exactly when it is a list property whose declared contained element is
one of the version's accepted reference shapes; a non-list property so named
fails regardless of its contained declaration. -/
theorem C7_refs_rule (v : Option String) (name : String) (p : PropDef)
    (htail : rsplitTail name = "refs") :
    (_check_ref_prop (refTypesFor v) name p = Except.ok ()
      ↔ (isinstanceOf p [PropClass.ListProperty] = true
          ∧ containedIsinstanceOf p.contained (refTypesFor v) = true))
    ∧ (isinstanceOf p [PropClass.ListProperty] = false →
        _check_ref_prop (refTypesFor v) name p = Except.error (RegError.badRefsProp name)) := by
  have hne : rsplitTail name ≠ "ref" := by
    rw [htail]; decide
  constructor
  · cases hB : (isinstanceOf p [PropClass.ListProperty] &&
        containedIsinstanceOf p.contained (refTypesFor v)) with
    | true =>
      obtain ⟨hA, hC⟩ := Bool.and_eq_true_iff.mp hB
      simp [_check_ref_prop, htail, hne, hB, hA, hC]
    | false =>
      simp only [_check_ref_prop, htail, hne, hB]
      constructor
      · intro hc
        simp at hc
      · rintro ⟨hA, hC⟩
        rw [hA, hC] at hB
        simp at hB
  · intro hL
    have hB : (isinstanceOf p [PropClass.ListProperty] &&
        containedIsinstanceOf p.contained (refTypesFor v)) = false := by
      rw [hL]
      simp
    simp [_check_ref_prop, htail, hne, hB]

/-- Witness for C7: `x_refs` with a non-list definition that still declares a
reference contained element fails under "2.1". -/
theorem C7_witness :
    rsplitTail "x_refs" = "refs"
    ∧ ((_check_ref_prop (refTypesFor (some "2.1")) "x_refs" fakeListProp = Except.ok ()
        ↔ (isinstanceOf fakeListProp [PropClass.ListProperty] = true
            ∧ containedIsinstanceOf fakeListProp.contained (refTypesFor (some "2.1")) = true))
       ∧ (isinstanceOf fakeListProp [PropClass.ListProperty] = false →
          _check_ref_prop (refTypesFor (some "2.1")) "x_refs" fakeListProp
            = Except.error (RegError.badRefsProp "x_refs"))) :=
  ⟨by decide, C7_refs_rule (some "2.1") "x_refs" fakeListProp (by decide)⟩

/-- C6: a property whose name's tail is `ref` passes the reference-typing
rule exactly when its definition is an instance of the version's accepted
reference shapes, any such violation fails the whole property-set validation,
the accepted shapes come from the static table with distinct entries for
"2.0" and "2.1", and every version absent from the table uses the "2.1"
shapes. -/
theorem C6_ref_rule (v : Option String) (props : List (String × PropDef)) (name : String)
    (p : PropDef) (hmem : (name, p) ∈ props) (htail : rsplitTail name = "ref") :
    (_check_ref_prop (refTypesFor v) name p = Except.ok ()
      ↔ isinstanceOf p (refTypesFor v) = true)
    ∧ (isinstanceOf p (refTypesFor v) = false →
        ∃ e, _validate_ref_props props v = Except.error e)
    ∧ (refTypesFor (some "2.0") = [PropClass.ObjectReferenceProperty, PropClass.ReferenceProperty]
       ∧ refTypesFor (some "2.1") = [PropClass.ReferenceProperty])
    ∧ (∀ w : String, dlookup w _VERSION_REF_TYPES_MAP = none →
        refTypesFor (some w) = refTypesFor (some "2.1")) := by
  have hne : rsplitTail name ≠ "refs" := by
    rw [htail]; decide
  refine ⟨?_, ?_, ⟨rfl, rfl⟩, ?_⟩
  · cases hI : isinstanceOf p (refTypesFor v) with
    | true => simp [_check_ref_prop, htail, hne, hI]
    | false => simp [_check_ref_prop, htail, hne, hI]
  · intro hI
    have hcheck : _check_ref_prop (refTypesFor v) name p
        = Except.error (RegError.badRefProp name) := by
      simp [_check_ref_prop, htail, hne, hI]
    rcases except_unit_cases (_validate_ref_props props v) with hok | ⟨e, he⟩
    · exfalso
      unfold _validate_ref_props at hok
      have h2 := (validateAll_ok_iff _ _).mp hok (name, p) hmem
      simp only at h2
      rw [hcheck] at h2
      cases h2
    · exact ⟨e, he⟩
  · intro w hw
    simp only [refTypesFor, hw]
    rfl

/-- Witness for C6: `src_ref` with a non-reference definition under "2.1". -/
theorem C6_witness :
    (("src_ref", otherProp) ∈ [("src_ref", otherProp)] ∧ rsplitTail "src_ref" = "ref")
    ∧ ((_check_ref_prop (refTypesFor (some "2.1")) "src_ref" otherProp = Except.ok ()
        ↔ isinstanceOf otherProp (refTypesFor (some "2.1")) = true)
       ∧ (isinstanceOf otherProp (refTypesFor (some "2.1")) = false →
          ∃ e, _validate_ref_props [("src_ref", otherProp)] (some "2.1") = Except.error e)
       ∧ (refTypesFor (some "2.0")
            = [PropClass.ObjectReferenceProperty, PropClass.ReferenceProperty]
          ∧ refTypesFor (some "2.1") = [PropClass.ReferenceProperty])
       ∧ (∀ w : String, dlookup w _VERSION_REF_TYPES_MAP = none →
            refTypesFor (some w) = refTypesFor (some "2.1"))) :=
  ⟨⟨by simp, by decide⟩,
   C6_ref_rule (some "2.1") [("src_ref", otherProp)] "src_ref" otherProp (by simp) (by decide)⟩

/-- C5: for every version other than "2.0", a property set containing a name
that does not begin with an alphabetic character fails validation with an
error naming such an offending property; for "2.0" the naming loop is
skipped entirely, so validation is exactly the reference-typing rule. -/
theorem C5_naming_rule (v : Option String) (props : List (String × PropDef))
    (hv : v ≠ some "2.0")
    (hbad : ∃ p ∈ props, beginsWithAlpha p.1 = false) :
    (∃ nm, nm ∈ props.map Prod.fst ∧ beginsWithAlpha nm = false ∧
      _validate_props props v = Except.error (RegError.badPropName nm))
    ∧ (∀ props2 : List (String × PropDef),
        _validate_props props2 (some "2.0") = _validate_ref_props props2 (some "2.0")) := by
  refine ⟨?_, fun props2 => rfl⟩
  obtain ⟨nm, hmem, hnb, herr⟩ := validateAll_names_error props hbad
  refine ⟨nm, hmem, hnb, ?_⟩
  unfold _validate_props
  rw [if_neg hv, herr]

/-- Witness for C5: the property name `1bad` fails under "2.1". -/
theorem C5_witness :
    ((some "2.1" : Option String) ≠ some "2.0"
     ∧ ∃ p ∈ [("1bad", otherProp)], beginsWithAlpha p.1 = false)
    ∧ ((∃ nm, nm ∈ [("1bad", otherProp)].map Prod.fst ∧ beginsWithAlpha nm = false ∧
          _validate_props [("1bad", otherProp)] (some "2.1")
            = Except.error (RegError.badPropName nm))
       ∧ (∀ props2 : List (String × PropDef),
            _validate_props props2 (some "2.0") = _validate_ref_props props2 (some "2.0"))) :=
  ⟨⟨by decide, ⟨("1bad", otherProp), by simp, by decide⟩⟩,
   C5_naming_rule (some "2.1") [("1bad", otherProp)] (by decide)
     ⟨("1bad", otherProp), by simp, by decide⟩⟩

/-- C2 counterexample: under version "2.1", an extension whose identifier
starts with the literal `extension-definition--` prefix followed by text that
is not UUID-shaped is claimed to be rejected with a naming error; the run
instead completes with no error at all (with the external identifier-shape
predicate accepting the identifier, whose grammar does not include a UUID
requirement). -/
theorem C2_counterexample :
    strStartsWith "extension-definition--notauuid" "extension-definition--" = true
    ∧ strEndsWith "extension-definition--notauuid" "-ext" = false
    ∧ isUuidShaped "notauuid" = false
    ∧ (_register_extension permissiveValidType extBadUuid (some "2.1") initialRegistry).2
        = none :=
  ⟨by decide, by decide, by decide, by decide⟩

/-- C2 amended: under version "2.1" (with the external identifier-shape
predicate accepting the identifier), extension registration fails with the
naming error exactly when the identifier neither ends with the literal
`-ext` nor starts with the literal `extension-definition--`; the text after
that prefix is not checked for UUID shape. -/
theorem C2_extension_naming_rule (vt : String → Option String → Bool) (t : StixClass)
    (st : RegistryState) (hvt : vt t.type (some "2.1") = true) :
    (ext_name_ok t.type = false →
      _register_extension vt t (some "2.1") st
        = (st, some (RegError.badExtensionName t.type)))
    ∧ (ext_name_ok t.type = true →
      ∀ e, (_register_extension vt t (some "2.1") st).2 = some e →
        ∀ nm, e ≠ RegError.badExtensionName nm) := by
  constructor
  · intro hok
    simp [_register_extension, hvt, hok]
  · intro hok e he nm
    cases hemp : (dictMerge t.properties (getattrToplevel t)).isEmpty with
    | true =>
      simp [_register_extension, hvt, hok, hemp] at he
      rw [← he]
      simp
    | false =>
      cases hval : _validate_props (dictMerge t.properties (getattrToplevel t))
          (some "2.1") with
      | error e1 =>
        simp [_register_extension, hvt, hok, hemp, hval] at he
        rw [← he]
        rcases validate_props_err_shape hval with ⟨n, rfl⟩ | ⟨n, rfl⟩ | ⟨n, rfl⟩ <;> simp
      | ok u =>
        cases u
        have he2 : (storeIn "Extension" Ns.extensions "2.1" t st).2 = some e := by
          simpa [_register_extension, hvt, hok, hemp, hval] using he
        rcases storeIn_err_shape he2 with rfl | rfl <;> simp

/-- Witness for the amended C2: `foo-bar` fails with the naming error. -/
theorem C2_witness :
    (permissiveValidType extFooBar.type (some "2.1") = true
     ∧ ext_name_ok extFooBar.type = false)
    ∧ _register_extension permissiveValidType extFooBar (some "2.1") initialRegistry
      = (initialRegistry, some (RegError.badExtensionName "foo-bar")) :=
  ⟨⟨rfl, by decide⟩,
   (C2_extension_naming_rule permissiveValidType extFooBar initialRegistry rfl).1 (by decide)⟩

/-- C4: a failing registration (any error, in any of the four operations)
returns the registry state it was given: validation fully precedes the
single catalog insertion, so a failed registration leaves all catalogs
unchanged. -/
theorem C4_failure_leaves_catalogs_unchanged :
    (∀ t v st e, (_register_object t v st).2 = some e → (_register_object t v st).1 = st)
    ∧ (∀ vt t v st e, (_register_marking vt t v st).2 = some e →
        (_register_marking vt t v st).1 = st)
    ∧ (∀ t v st e, (_register_observable t v st).2 = some e →
        (_register_observable t v st).1 = st)
    ∧ (∀ vt t v st e, (_register_extension vt t v st).2 = some e →
        (_register_extension vt t v st).1 = st) := by
  refine ⟨?_, ?_, ?_, ?_⟩
  · intro t v st e he
    rcases register_object_err_state t v st with h1 | h2
    · exact h1
    · rw [he] at h2
      cases h2
  · intro vt t v st e he
    rcases register_marking_err_state vt t v st with h1 | h2
    · exact h1
    · rw [he] at h2
      cases h2
  · intro t v st e he
    rcases register_observable_err_state t v st with h1 | h2
    · exact h1
    · rw [he] at h2
      cases h2
  · intro vt t v st e he
    rcases register_extension_err_state vt t v st with h1 | h2
    · exact h1
    · rw [he] at h2
      cases h2

/-- Witness for C4: a failing domain-object registration leaves the initial
registry untouched. -/
theorem C4_witness :
    (_register_object badNameObject none initialRegistry).2
      = some (RegError.notCustomObject "x-bad")
    ∧ (_register_object badNameObject none initialRegistry).1 = initialRegistry :=
  ⟨rfl, C4_failure_leaves_catalogs_unchanged.1 badNameObject none initialRegistry
    (RegError.notCustomObject "x-bad") rfl⟩

/-- C3: in every namespace, re-registering a type whose identifier was just
registered under the same version fails with `DuplicateRegistrationError`
(carrying the namespace category) and leaves the state unchanged; a
registration under one version does not impede a registration of the same
type under a different version; and every registration, successful or not,
preserves the invariant that each identifier occurs at most once per
namespace and version (insertion only appends an absent identifier). -/
theorem C3_duplicate_and_version_isolation :
    (∀ t v st st1, _register_object t v st = (st1, none) →
      _register_object t v st1
        = (st1, some (RegError.duplicateRegistration "STIX Object" t.type)))
    ∧ (∀ vt t v st st1, _register_marking vt t v st = (st1, none) →
      _register_marking vt t v st1
        = (st1, some (RegError.duplicateRegistration "STIX Marking" t.type)))
    ∧ (∀ t v st st1, _register_observable t v st = (st1, none) →
      _register_observable t v st1
        = (st1, some (RegError.duplicateRegistration "Cyber Observable" t.type)))
    ∧ (∀ vt t v st st1, _register_extension vt t v st = (st1, none) →
      _register_extension vt t v st1
        = (st1, some (RegError.duplicateRegistration "Extension" t.type)))
    ∧ (∀ t v v' st st1 r, v' ≠ v → _register_object t (some v) st = (st1, none) →
      _register_object t (some v') st = (r, none) →
      ∃ st2, _register_object t (some v') st1 = (st2, none))
    ∧ (∀ vt t v v' st st1 r, v' ≠ v → _register_marking vt t (some v) st = (st1, none) →
      _register_marking vt t (some v') st = (r, none) →
      ∃ st2, _register_marking vt t (some v') st1 = (st2, none))
    ∧ (∀ t v v' st st1 r, v' ≠ v → _register_observable t (some v) st = (st1, none) →
      _register_observable t (some v') st = (r, none) →
      ∃ st2, _register_observable t (some v') st1 = (st2, none))
    ∧ (∀ vt t v v' st st1 r, v' ≠ v → _register_extension vt t (some v) st = (st1, none) →
      _register_extension vt t (some v') st = (r, none) →
      ∃ st2, _register_extension vt t (some v') st1 = (st2, none))
    ∧ (∀ t v st st1 r, _register_object t v st = (st1, r) →
      catalogsNodup st → catalogsNodup st1)
    ∧ (∀ vt t v st st1 r, _register_marking vt t v st = (st1, r) →
      catalogsNodup st → catalogsNodup st1)
    ∧ (∀ t v st st1 r, _register_observable t v st = (st1, r) →
      catalogsNodup st → catalogsNodup st1)
    ∧ (∀ vt t v st st1 r, _register_extension vt t v st = (st1, r) →
      catalogsNodup st → catalogsNodup st1) := by
  refine ⟨?_, ?_, ?_, ?_, ?_, ?_, ?_, ?_, ?_, ?_, ?_, ?_⟩
  · intro t v st st1 h
    obtain ⟨hflag, s, hres, hval, hstore⟩ := register_object_ok_inv h
    rw [register_object_eq_store hflag hres hval st1]
    exact storeIn_dup hstore
  · intro vt t v st st1 h
    obtain ⟨s, hres, hvt, hval, hstore⟩ := register_marking_ok_inv h
    rw [register_marking_eq_store hres hvt hval st1]
    exact storeIn_dup hstore
  · intro t v st st1 h
    obtain ⟨s, hres, hval, hstore⟩ := register_observable_ok_inv h
    rw [register_observable_eq_store hres hval st1]
    exact storeIn_dup hstore
  · intro vt t v st st1 h
    obtain ⟨hvt, hname, hemp, hval, s, hw, hstore⟩ := register_extension_ok_inv h
    subst hw
    rw [register_extension_eq_store hvt hname hemp hval st1]
    exact storeIn_dup hstore
  · intro t v v' st st1 r hne h1 h2
    obtain ⟨hflag, s, hres, hval, hstore⟩ := register_object_ok_inv h1
    obtain ⟨hflag2, s2, hres2, hval2, hstore2⟩ := register_object_ok_inv h2
    injection resolveVersionArg_ok hres with hs
    injection resolveVersionArg_ok hres2 with hs2
    subst hs
    subst hs2
    obtain ⟨st2, h3⟩ := storeIn_other_version hstore hne hstore2
    refine ⟨st2, ?_⟩
    rw [register_object_eq_store hflag2 hres2 hval2 st1]
    exact h3
  · intro vt t v v' st st1 r hne h1 h2
    obtain ⟨s, hres, hvt, hval, hstore⟩ := register_marking_ok_inv h1
    obtain ⟨s2, hres2, hvt2, hval2, hstore2⟩ := register_marking_ok_inv h2
    injection resolveVersionArg_ok hres with hs
    injection resolveVersionArg_ok hres2 with hs2
    subst hs
    subst hs2
    obtain ⟨st2, h3⟩ := storeIn_other_version hstore hne hstore2
    refine ⟨st2, ?_⟩
    rw [register_marking_eq_store hres2 hvt2 hval2 st1]
    exact h3
  · intro t v v' st st1 r hne h1 h2
    obtain ⟨s, hres, hval, hstore⟩ := register_observable_ok_inv h1
    obtain ⟨s2, hres2, hval2, hstore2⟩ := register_observable_ok_inv h2
    injection resolveVersionArg_ok hres with hs
    injection resolveVersionArg_ok hres2 with hs2
    subst hs
    subst hs2
    obtain ⟨st2, h3⟩ := storeIn_other_version hstore hne hstore2
    refine ⟨st2, ?_⟩
    rw [register_observable_eq_store hres2 hval2 st1]
    exact h3
  · intro vt t v v' st st1 r hne h1 h2
    obtain ⟨hvt, hname, hemp, hval, s, hw, hstore⟩ := register_extension_ok_inv h1
    obtain ⟨hvt2, hname2, hemp2, hval2, s2, hw2, hstore2⟩ := register_extension_ok_inv h2
    injection hw with hs
    injection hw2 with hs2
    subst hs
    subst hs2
    obtain ⟨st2, h3⟩ := storeIn_other_version hstore hne hstore2
    refine ⟨st2, ?_⟩
    rw [register_extension_eq_store hvt2 hname2 hemp2 hval2 st1]
    exact h3
  · intro t v st st1 r h hnd
    rcases register_object_err_state t v st with h1 | h2
    · rw [h] at h1
      simp only at h1
      rw [h1]
      exact hnd
    · rw [h] at h2
      simp only at h2
      subst h2
      obtain ⟨hflag, s, hres, hval, hstore⟩ := register_object_ok_inv h
      exact storeIn_preserves_nodup hstore hnd
  · intro vt t v st st1 r h hnd
    rcases register_marking_err_state vt t v st with h1 | h2
    · rw [h] at h1
      simp only at h1
      rw [h1]
      exact hnd
    · rw [h] at h2
      simp only at h2
      subst h2
      obtain ⟨s, hres, hvt, hval, hstore⟩ := register_marking_ok_inv h
      exact storeIn_preserves_nodup hstore hnd
  · intro t v st st1 r h hnd
    rcases register_observable_err_state t v st with h1 | h2
    · rw [h] at h1
      simp only at h1
      rw [h1]
      exact hnd
    · rw [h] at h2
      simp only at h2
      subst h2
      obtain ⟨s, hres, hval, hstore⟩ := register_observable_ok_inv h
      exact storeIn_preserves_nodup hstore hnd
  · intro vt t v st st1 r h hnd
    rcases register_extension_err_state vt t v st with h1 | h2
    · rw [h] at h1
      simp only at h1
      rw [h1]
      exact hnd
    · rw [h] at h2
      simp only at h2
      subst h2
      obtain ⟨hvt, hname, hemp, hval, s, hw, hstore⟩ := register_extension_ok_inv h
      exact storeIn_preserves_nodup hstore hnd

/-- Witness for C3: registering the sample object twice under "2.1" fails the
second call with the duplicate error for the `STIX Object` category. -/
theorem C3_witness :
    _register_object sampleObject (some "2.1") initialRegistry = (st1Sample, none)
    ∧ _register_object sampleObject (some "2.1") st1Sample
      = (st1Sample, some (RegError.duplicateRegistration "STIX Object" "x-sample")) :=
  ⟨rfl, C3_duplicate_and_version_isolation.1 sampleObject (some "2.1") initialRegistry
    st1Sample rfl⟩
